import Mathlib

/-!
Shallow embedding of the NFT search and pagination logic of
src/src/components/Demo.tsx: the address test, collection-name
resolution, contract-metadata lookup, paginated listing fetch with
merge / dedup / sort, the failure handling of searchNFTs, and the
loadMore / intersection-observer continuation guards.

React state writes are modelled by threading an explicit SearchState;
variables captured by the closure at render time (notably the pageKey
read when building the listing request) are read from the state at
invocation time, matching the stale-closure semantics of the source.
Network calls are modelled by an environment of oracle responses, and
each issued request is recorded in an output log.
-/

namespace Demo

/-- JavaScript truthiness of a string: falsy iff empty. -/
def jsStrTruthy (s : String) : Bool := s != ""

/-- JavaScript truthiness of a value of type string | undefined. -/
def jsOptTruthy : Option String → Bool
  | some s => jsStrTruthy s
  | none => false

/-- JavaScript a || b where a : string | undefined and b : string. -/
def jsOrStr (a : Option String) (b : String) : String :=
  match a with
  | some s => if s = "" then b else s
  | none => b

/-- JavaScript pageKey || null on a string | undefined value. -/
def jsOrOpt : Option String → Option String
  | some s => if s = "" then none else some s
  | none => none

/-- One hex digit, upper or lower case (the i flag of the regex). -/
def isHexChar (c : Char) : Bool :=
  ('0' ≤ c && c ≤ '9') || ('a' ≤ c && c ≤ 'f') || ('A' ≤ c && c ≤ 'F')

/-- The address test of Demo.tsx line 187: the JavaScript regex
test of ^0x[a-fA-F0-9]\x7b40\x7d$ with the i flag.  The literal 0x must be
present (the i flag only makes the x match X as well). -/
def isAddressTest (q : String) : Bool :=
  match q.data with
  | '0' :: x :: rest => (x = 'x' || x = 'X') && rest.length == 40 && rest.all isHexChar
  | _ => false

/-- Modelled from the spec words of C3, for comparison with
isAddressTest only: a 40-hex-character string whose 0x prefix is
OPTIONAL (case-insensitive). -/
def claimAddressPattern (q : String) : Bool :=
  let cs := q.data
  let core :=
    match cs with
    | '0' :: x :: rest => if x = 'x' || x = 'X' then rest else cs
    | _ => cs
  core.length == 40 && core.all isHexChar

/-- Value of one decimal digit character. -/
def decDigitVal (c : Char) : Option Nat :=
  if '0' ≤ c ∧ c ≤ '9' then some (c.toNat - '0'.toNat) else none

/-- Value of one hexadecimal digit character. -/
def hexDigitVal (c : Char) : Option Nat :=
  if '0' ≤ c ∧ c ≤ '9' then some (c.toNat - '0'.toNat)
  else if 'a' ≤ c ∧ c ≤ 'f' then some (c.toNat - 'a'.toNat + 10)
  else if 'A' ≤ c ∧ c ≤ 'F' then some (c.toNat - 'A'.toNat + 10)
  else none

/-- Accumulate the longest leading run of digits. -/
def takeDigits (dv : Char → Option Nat) (base : Nat) : List Char → Nat → Nat
  | [], acc => acc
  | c :: cs, acc =>
    match dv c with
    | some d => takeDigits dv base cs (acc * base + d)
    | none => acc

/-- Longest leading run of digits; none when there is no digit at all. -/
def parseDigits (dv : Char → Option Nat) (base : Nat) : List Char → Option Nat
  | [] => none
  | c :: cs =>
    match dv c with
    | some d => some (takeDigits dv base cs d)
    | none => none

/-- JavaScript whitespace characters relevant to parseInt trimming. -/
def isJsWhitespace (c : Char) : Bool :=
  c = ' ' || c = '\t' || c = '\n' || c = '\r'

/-- JavaScript parseInt with no radix argument: trim leading
whitespace, optional sign, 0x/0X selects base 16, longest digit run,
NaN (none) when no digit is consumed. -/
def jsParseInt (s : String) : Option Int :=
  let cs := s.data.dropWhile isJsWhitespace
  let signed : Int × List Char :=
    match cs with
    | '-' :: rest => (-1, rest)
    | '+' :: rest => (1, rest)
    | _ => (1, cs)
  let mag : Option Nat :=
    match signed.2 with
    | '0' :: x :: rest =>
      if x = 'x' || x = 'X' then parseDigits hexDigitVal 16 rest
      else parseDigits decDigitVal 10 signed.2
    | _ => parseDigits decDigitVal 10 signed.2
  mag.map (fun n => signed.1 * (n : Int))

/-- The image record of a raw NFT from the listing service; every
field may be absent. -/
structure NFTImage where
  originalUrl : Option String
  thumbnailUrl : Option String
  pngUrl : Option String
  url : Option String
deriving DecidableEq, Repr

/-- A raw NFT item of the listing response, as read by searchNFTs. -/
structure RawNFT where
  contractAddress : String
  contractSymbol : Option String
  tokenId : String
  title : Option String
  name : Option String
  description : Option String
  image : Option NFTImage
deriving DecidableEq, Repr

/-- The normalized NFTResult record built by searchNFTs (the media
array always holds exactly one entry in the source, flattened here). -/
structure NFTResult where
  contractAddress : String
  contractName : String
  contractSymbol : String
  tokenId : String
  title : String
  description : String
  mediaRaw : String
  mediaGateway : String
deriving DecidableEq, Repr

/-- One contract record of the searchContractMetadata response. -/
structure ContractInfo where
  name : Option String
  address : String
deriving DecidableEq, Repr

/-- Body of the searchContractMetadata response; a missing contracts
field is modelled as the empty list. -/
structure SearchContractsResp where
  contracts : List ContractInfo
deriving DecidableEq, Repr

/-- Body of the getContractMetadata response; none covers both a
missing contractMetadata object and a missing name field. -/
structure ContractMetadataResp where
  name : Option String
deriving DecidableEq, Repr

/-- Body of the getNFTsForCollection response. -/
structure NFTsResp where
  nfts : List RawNFT
  pageKey : Option String
deriving DecidableEq, Repr

/-- Outcome of one fetch: ok with a parsed body, or fail for a
network error / non-2xx response (the thrown path). -/
inductive FetchResult (α : Type) where
  | ok (data : α)
  | fail
deriving DecidableEq, Repr

/-- Responses the three services would give to this invocation. -/
structure Env where
  nameSearch : FetchResult SearchContractsResp
  contractMeta : FetchResult ContractMetadataResp
  listNFTs : FetchResult NFTsResp
deriving DecidableEq, Repr

/-- A network request issued by searchNFTs, recorded in order. -/
inductive Request where
  | nameSearch (query : String) (page : Nat) (pageSize : Nat)
  | contractMeta (address : String)
  | listNFTs (address : String) (limit : Nat) (pageKey : Option String)
deriving DecidableEq, Repr

/-- Whether a request is a name-search (searchContractMetadata) call. -/
def Request.isNameSearch : Request → Bool
  | .nameSearch _ _ _ => true
  | _ => false

/-- The React state fields touched by the search / pagination logic. -/
structure SearchState where
  searchResults : List NFTResult
  isLoading : Bool
  isLoadingMore : Bool
  error : Option String
  showSuggestions : Bool
  hasMore : Bool
  pageKey : Option String
  currentContractAddress : Option String
deriving DecidableEq, Repr

/-- Demo.tsx lines 170-180: the synchronous opening of searchNFTs
after the guard: reset the session on resetResults, otherwise mark a
continuation fetch in flight; then clear the error and hide the
suggestion dropdown. -/
def resetStep (resetResults : Bool) (s : SearchState) : SearchState :=
  let s1 :=
    if resetResults then
      { s with isLoading := true, searchResults := [], pageKey := none, hasMore := true }
    else
      { s with isLoadingMore := true }
  { s1 with error := none, showSuggestions := false }

/-- The finally block (lines 304-307). -/
def finishFetch (s : SearchState) : SearchState :=
  { s with isLoading := false, isLoadingMore := false }

/-- The catch block (lines 298-303) followed by finally. -/
def catchFetchError (resetResults : Bool) (msg : String) (s : SearchState) : SearchState :=
  let s1 := { s with error := some msg }
  finishFetch (if resetResults then { s1 with searchResults := [] } else s1)

/-- Outcome of the target-address resolution (lines 183-221). -/
inductive ResolveOutcome where
  | failed (msg : String)
  | notFound
  | resolved (addr : String)
deriving DecidableEq, Repr

/-- Lines 183-221: if a contract address was passed and is truthy it
is the target; else an address-shaped query is used directly; else a
single name-search request of page 1, size 1 resolves the first
match's address, failing on fetch error and early-returning on zero
matches. -/
def resolveTarget (query : String) (contractAddress : Option String) (env : Env) :
    ResolveOutcome × List Request :=
  if jsOptTruthy contractAddress then
    (.resolved (contractAddress.getD ""), [])
  else if isAddressTest query then
    (.resolved query, [])
  else
    let req := Request.nameSearch query 1 1
    match env.nameSearch with
    | .fail => (.failed "Failed to search for collection", [req])
    | .ok data =>
      match data.contracts with
      | [] => (.notFound, [req])
      | c :: _ => (.resolved c.address, [req])

/-- Lines 273-286: normalize one raw NFT, with the || fallback
chains for symbol, title, description and the two media fields. -/
def formatNFT (contractName : String) (nft : RawNFT) : NFTResult :=
  { contractAddress := nft.contractAddress
    contractName := contractName
    contractSymbol := jsOrStr nft.contractSymbol ""
    tokenId := nft.tokenId
    title := jsOrStr nft.title (jsOrStr nft.name (contractName ++ " #" ++ nft.tokenId))
    description := jsOrStr nft.description ""
    mediaRaw :=
      jsOrStr (nft.image.bind NFTImage.originalUrl)
        (jsOrStr (nft.image.bind NFTImage.thumbnailUrl)
          (jsOrStr (nft.image.bind NFTImage.pngUrl)
            (jsOrStr (nft.image.bind NFTImage.url) "")))
    mediaGateway :=
      jsOrStr (nft.image.bind NFTImage.thumbnailUrl)
        (jsOrStr (nft.image.bind NFTImage.pngUrl)
          (jsOrStr (nft.image.bind NFTImage.url)
            (jsOrStr (nft.image.bind NFTImage.originalUrl) ""))) }

/-- Lines 290-295: the filter over a seen-Set of tokenIds; the first
occurrence of each tokenId is kept. -/
def dedupSeen (seen : List String) : List NFTResult → List NFTResult
  | [] => []
  | x :: xs =>
    if x.tokenId ∈ seen then dedupSeen (x.tokenId :: seen) xs
    else x :: dedupSeen (x.tokenId :: seen) xs

/-- Deduplicate a result list by tokenId, first occurrence wins. -/
def dedupByTokenId (l : List NFTResult) : List NFTResult := dedupSeen [] l

/-- The sort comparator parseInt(a.tokenId) - parseInt(b.tokenId) is
strictly negative; a NaN comparator value is treated as zero, as the
ECMAScript SortCompare does. -/
def tokenLT (a b : NFTResult) : Bool :=
  match jsParseInt a.tokenId, jsParseInt b.tokenId with
  | some x, some y => x < y
  | _, _ => false

/-- Stable insertion of x after every element strictly below it. -/
def insertSorted (x : NFTResult) : List NFTResult → List NFTResult
  | [] => [x]
  | y :: ys => if tokenLT y x then y :: insertSorted x ys else x :: y :: ys

/-- Line 296: a stable sort by the parseInt comparator. -/
def sortByTokenId : List NFTResult → List NFTResult
  | [] => []
  | x :: xs => insertSorted x (sortByTokenId xs)

/-- Lines 288-297: the functional state update merging a formatted
page into the previous accumulation. -/
def mergePage (resetResults : Bool) (prev formatted : List NFTResult) : List NFTResult :=
  let newResults := if resetResults then formatted else prev ++ formatted
  sortByTokenId (dedupByTokenId newResults)

/-- Lines 254-307 from the listing response on: the empty-page branch
(lines 260-267), the cursor / exhausted-flag update (270-271), and the
format-merge update (273-297), each followed by the finally block.
This is the continuation that runs after the listing fetch resolves,
against whatever state is current at that moment. -/
def processNFTsResponse (resetResults : Bool) (contractName : String) (ndata : NFTsResp)
    (s : SearchState) : SearchState :=
  if ndata.nfts.isEmpty then
    let s1 :=
      if resetResults then
        { s with error := some "No NFTs found in this collection", searchResults := [] }
      else s
    finishFetch { s1 with hasMore := false }
  else
    let s1 := { s with pageKey := jsOrOpt ndata.pageKey, hasMore := jsOptTruthy ndata.pageKey }
    let formatted := ndata.nfts.map (formatNFT contractName)
    finishFetch { s1 with searchResults := mergePage resetResults s1.searchResults formatted }

/-- Demo.tsx lines 167-308: the whole searchNFTs invocation, given
the environment of service responses; returns the resulting state and
the ordered log of issued requests.  The pageKey appended to the
listing request is the one captured by the closure at invocation time
(s0.pageKey), not the value set by resetStep, matching the source. -/
def searchNFTs (query : String) (contractAddress : Option String) (resetResults : Bool)
    (env : Env) (s0 : SearchState) : SearchState × List Request :=
  if !jsStrTruthy query && !jsOptTruthy contractAddress then (s0, [])
  else
    let s1 := resetStep resetResults s0
    match resolveTarget query contractAddress env with
    | (.failed msg, reqs) => (catchFetchError resetResults msg s1, reqs)
    | (.notFound, reqs) =>
      (finishFetch { s1 with error := some "Collection not found", searchResults := [] }, reqs)
    | (.resolved target, reqs) =>
      let s2 := if jsStrTruthy target then { s1 with currentContractAddress := some target } else s1
      let reqs := reqs ++ [Request.contractMeta target]
      match env.contractMeta with
      | .fail => (catchFetchError resetResults "Failed to fetch contract metadata" s2, reqs)
      | .ok meta =>
        let contractName := jsOrStr meta.name query
        let sentKey := if jsOptTruthy s0.pageKey then s0.pageKey else none
        let reqs := reqs ++ [Request.listNFTs target 100 sentKey]
        match env.listNFTs with
        | .fail => (catchFetchError resetResults "Failed to fetch NFTs from collection" s2, reqs)
        | .ok ndata => (processNFTsResponse resetResults contractName ndata s2, reqs)

/-- Demo.tsx lines 311-315: loadMore fires a continuation fetch only
when no continuation fetch is in flight, more pages remain, and a
current contract address exists. -/
def loadMore (env : Env) (s : SearchState) : SearchState × List Request :=
  if !s.isLoadingMore && s.hasMore && jsOptTruthy s.currentContractAddress then
    searchNFTs (s.currentContractAddress.getD "") s.currentContractAddress false env s
  else (s, [])

/-- Demo.tsx lines 318-326: the intersection-observer callback calls
loadMore only when the trigger is visible and no fetch of either kind
is in flight and more pages remain. -/
def observerTrigger (isIntersecting : Bool) (env : Env) (s : SearchState) :
    SearchState × List Request :=
  if isIntersecting && !s.isLoading && !s.isLoadingMore && s.hasMore then loadMore env s
  else (s, [])

/-- A tokenId whose parseInt value is a number, not NaN. -/
def numericTok (x : NFTResult) : Bool := (jsParseInt x.tokenId).isSome

/-- The numeric value of a tokenId as the sort comparator sees it. -/
def tokenVal (x : NFTResult) : Int := (jsParseInt x.tokenId).getD 0

/-- Two items with distinct tokenIds. -/
abbrev tokenIdNe (a b : NFTResult) : Prop := a.tokenId ≠ b.tokenId

/-- Non-decreasing numeric tokenId order between two items. -/
abbrev tokenValLe (a b : NFTResult) : Prop := tokenVal a ≤ tokenVal b

/-- The items of a result list carrying one given tokenId. -/
def filterTok (t : String) (l : List NFTResult) : List NFTResult :=
  l.filter (fun b => b.tokenId == t)

/-- The contract names (display names) carried by a result list. -/
def contractNamesOf (l : List NFTResult) : List String := l.map NFTResult.contractName

/-- Whether this invocation's fetch sequence hits a network or
non-2xx failure, i.e. reaches one of the three throw sites of
searchNFTs (as opposed to succeeding or early-returning on zero
matches or an empty page). -/
def fetchFails (query : String) (contractAddress : Option String) (env : Env) : Bool :=
  match resolveTarget query contractAddress env with
  | (.failed _, _) => true
  | (.notFound, _) => false
  | (.resolved _, _) =>
    match env.contractMeta with
    | .fail => true
    | .ok _ =>
      match env.listNFTs with
      | .fail => true
      | .ok _ => false

/-- Sample accumulated items: distinct numeric tokenIds 3 and 7. -/
def itemW1 : NFTResult := ⟨"0xc", "Coll", "", "3", "t3", "", "", ""⟩

def itemW2 : NFTResult := ⟨"0xc", "Coll", "", "7", "t7", "", "", ""⟩

/-- A later page's record re-sending tokenId 3 with different fields. -/
def itemW3 : NFTResult := ⟨"0xc", "Other", "", "3", "other3", "", "", ""⟩

def itemW4 : NFTResult := ⟨"0xc", "Coll", "", "5", "t5", "", "", ""⟩

/-- The raw NFT carried by a late or sample listing page. -/
def lateNft : RawNFT := ⟨"0xold", none, "42", some "Old #42", none, none, none⟩

/-- Session state right after a new search reset the accumulation,
cursor and exhausted-flag, its first fetch still in flight. -/
def freshSession : SearchState :=
  resetStep true ⟨[itemW1], false, false, none, false, false, some "oldKey", some "0xold"⟩

/-- A session with a continuation fetch in flight. -/
def busyState : SearchState := ⟨[], false, true, none, false, true, none, some "0xc"⟩

/-- An idle session state used by concrete runs. -/
def cexState : SearchState := ⟨[], false, false, none, false, true, none, none⟩

/-- Responses where every service succeeds: the name search returns
one match named Some Collection at address 0xabc, the metadata
lookup names the contract Meta Name, the listing returns one item. -/
def cexEnv : Env :=
  ⟨.ok ⟨[⟨some "Some Collection", "0xabc"⟩]⟩, .ok ⟨some "Meta Name"⟩, .ok ⟨[lateNft], none⟩⟩

/-- An environment where every fetch fails. -/
def envW : Env := ⟨.fail, .fail, .fail⟩

/-- An environment whose listing call returns an empty first page. -/
def emptyPageEnv : Env := ⟨.fail, .ok ⟨some "N"⟩, .ok ⟨[], none⟩⟩

/-- A query of valid address shape (0x plus 40 hex characters). -/
def addrQ : String := "0xb47e3cd837dDF8e4c57F05d70Ab865de6e193BBB"

theorem insertSorted_perm (x : NFTResult) (l : List NFTResult) :
    (insertSorted x l).Perm (x :: l) := by
  induction l with
  | nil => simp [insertSorted]
  | cons y ys ih =>
    simp only [insertSorted]
    split
    · exact (ih.cons y).trans (List.Perm.swap x y ys)
    · exact List.Perm.refl _

theorem sortByTokenId_perm (l : List NFTResult) : (sortByTokenId l).Perm l := by
  induction l with
  | nil => simp [sortByTokenId]
  | cons x xs ih => exact (insertSorted_perm x (sortByTokenId xs)).trans (ih.cons x)

theorem dedupSeen_sublist (seen : List String) (l : List NFTResult) :
    (dedupSeen seen l).Sublist l := by
  induction l generalizing seen with
  | nil => simp [dedupSeen]
  | cons x xs ih =>
    simp only [dedupSeen]
    split
    · exact (ih _).cons x
    · exact (ih _).cons₂ x

theorem mem_dedupSeen_not_seen (seen : List String) (l : List NFTResult) :
    ∀ x ∈ dedupSeen seen l, x.tokenId ∉ seen := by
  induction l generalizing seen with
  | nil => simp [dedupSeen]
  | cons x xs ih =>
    simp only [dedupSeen]
    split
    · intro y hy
      exact fun hmem => ih (x.tokenId :: seen) y hy (List.mem_cons_of_mem _ hmem)
    · next hc =>
      intro y hy
      rcases List.mem_cons.mp hy with rfl | hy'
      · exact hc
      · exact fun hmem => ih (x.tokenId :: seen) y hy' (List.mem_cons_of_mem _ hmem)

theorem dedupSeen_pairwise (seen : List String) (l : List NFTResult) :
    (dedupSeen seen l).Pairwise tokenIdNe := by
  induction l generalizing seen with
  | nil => simp [dedupSeen]
  | cons x xs ih =>
    simp only [dedupSeen]
    split
    · exact ih _
    · refine List.Pairwise.cons ?_ (ih _)
      intro y hy
      have hns := mem_dedupSeen_not_seen _ _ y hy
      exact fun he => hns (by rw [← he]; exact List.mem_cons_self _ _)

theorem mem_dedupSeen_append (seen : List String) (prev page : List NFTResult) (a : NFTResult)
    (hp : prev.Pairwise tokenIdNe) (ha : a ∈ prev)
    (hs : ∀ x ∈ prev, x.tokenId ∉ seen) :
    a ∈ dedupSeen seen (prev ++ page) := by
  induction prev generalizing seen with
  | nil => cases ha
  | cons p ps ih =>
    simp only [List.cons_append, dedupSeen]
    rw [if_neg (hs p (List.mem_cons_self _ _))]
    rcases List.mem_cons.mp ha with rfl | ha'
    · exact List.mem_cons_self _ _
    · refine List.mem_cons_of_mem _ (ih _ (List.Pairwise.of_cons hp) ha' ?_)
      intro x hx hmem
      rcases List.mem_cons.mp hmem with he | hmem'
      · exact (List.rel_of_pairwise_cons hp hx) he.symm
      · exact hs x (List.mem_cons_of_mem _ hx) hmem'

theorem filterTok_eq_of_pairwise (l : List NFTResult) (a : NFTResult)
    (hl : l.Pairwise tokenIdNe) (ha : a ∈ l) :
    filterTok a.tokenId l = [a] := by
  induction l with
  | nil => cases ha
  | cons x xs ih =>
    rcases List.pairwise_cons.mp hl with ⟨hx, hxs⟩
    rcases List.mem_cons.mp ha with rfl | ha'
    · simp only [filterTok, List.filter_cons, beq_self_eq_true, if_true]
      have hnil : xs.filter (fun b => b.tokenId == a.tokenId) = [] := by
        rw [List.filter_eq_nil_iff]
        intro y hy
        simp only [beq_iff_eq]
        exact fun he => hx y hy he.symm
      rw [hnil]
    · have hxa : (x.tokenId == a.tokenId) = false := by
        simp only [beq_eq_false_iff_ne, ne_eq]
        exact hx a ha'
      simp only [filterTok, List.filter_cons, hxa, if_false]
      exact ih hxs ha'

theorem tokenLT_lt (a b : NFTResult) (h : tokenLT a b = true) : tokenVal a < tokenVal b := by
  unfold tokenLT at h
  unfold tokenVal
  rcases hx : jsParseInt a.tokenId with _ | x <;> rcases hy : jsParseInt b.tokenId with _ | y <;>
    rw [hx, hy] at h <;> simp_all

theorem tokenLT_false_le (a b : NFTResult) (ha : numericTok a = true) (hb : numericTok b = true)
    (h : tokenLT b a = false) : tokenVal a ≤ tokenVal b := by
  unfold numericTok at ha hb
  unfold tokenLT at h
  unfold tokenVal
  rcases hx : jsParseInt a.tokenId with _ | x <;> rcases hy : jsParseInt b.tokenId with _ | y <;>
    rw [hx] at ha <;> rw [hy] at hb <;> rw [hy, hx] at h <;> simp_all

theorem insertSorted_pairwise (x : NFTResult) (l : List NFTResult)
    (hx : numericTok x = true) (hl : ∀ y ∈ l, numericTok y = true)
    (h : l.Pairwise tokenValLe) : (insertSorted x l).Pairwise tokenValLe := by
  induction l with
  | nil => simp [insertSorted]
  | cons y ys ih =>
    rcases List.pairwise_cons.mp h with ⟨hy, hys⟩
    simp only [insertSorted]
    split
    · next hlt =>
      refine List.Pairwise.cons ?_ (ih (fun z hz => hl z (List.mem_cons_of_mem _ hz)) hys)
      intro z hz
      have hz2 := (insertSorted_perm x ys).mem_iff.mp hz
      rcases List.mem_cons.mp hz2 with rfl | hz'
      · exact le_of_lt (tokenLT_lt y z hlt)
      · exact hy z hz'
    · next hlt =>
      have hxy : tokenVal x ≤ tokenVal y :=
        tokenLT_false_le x y hx (hl y (List.mem_cons_self _ _))
          (Bool.not_eq_true _ ▸ eq_false_of_ne_true hlt)
      refine List.Pairwise.cons ?_ (List.Pairwise.cons hy hys)
      intro z hz
      rcases List.mem_cons.mp hz with rfl | hz'
      · exact hxy
      · exact le_trans hxy (hy z hz')

theorem sortByTokenId_pairwise (l : List NFTResult) (hl : ∀ y ∈ l, numericTok y = true) :
    (sortByTokenId l).Pairwise tokenValLe := by
  induction l with
  | nil => simp [sortByTokenId]
  | cons x xs ih =>
    simp only [sortByTokenId]
    refine insertSorted_pairwise x (sortByTokenId xs) (hl x (List.mem_cons_self _ _)) ?_
      (ih (fun y hy => hl y (List.mem_cons_of_mem _ hy)))
    intro y hy
    exact hl y (List.mem_cons_of_mem _ ((sortByTokenId_perm xs).mem_iff.mp hy))

theorem mergePage_pairwise_ne (reset : Bool) (prev page : List NFTResult) :
    (mergePage reset prev page).Pairwise tokenIdNe := by
  simp only [mergePage]
  have hsym : ∀ {a b : NFTResult}, tokenIdNe a b → tokenIdNe b a :=
    fun h he => h he.symm
  exact ((sortByTokenId_perm _).pairwise_iff hsym).mpr (dedupSeen_pairwise [] _)

theorem mergePage_subset (reset : Bool) (prev page : List NFTResult) :
    ∀ z ∈ mergePage reset prev page, z ∈ (if reset then page else prev ++ page) := by
  intro z hz
  simp only [mergePage] at hz
  exact (dedupSeen_sublist [] _).subset ((sortByTokenId_perm _).mem_iff.mp hz)

theorem mergePage_reset_ne_nil (prev : List NFTResult) (x : NFTResult) (xs : List NFTResult) :
    mergePage true prev (x :: xs) ≠ [] := by
  simp only [mergePage, if_true]
  intro he
  have hlen := (sortByTokenId_perm (dedupByTokenId (x :: xs))).length_eq
  rw [he] at hlen
  have hnil : dedupByTokenId (x :: xs) = [] := List.length_eq_zero.mp hlen.symm
  simp [dedupByTokenId, dedupSeen] at hnil

theorem isAddressTest_truthy (q : String) (h : isAddressTest q = true) :
    jsStrTruthy q = true := by
  simp only [jsStrTruthy, bne_iff_ne, ne_eq]
  intro he
  rw [he] at h
  exact absurd h (by decide)

theorem resolveTarget_reqs (q : String) (ca : Option String) (env : Env) :
    (resolveTarget q ca env).2 = [] ∨ (resolveTarget q ca env).2 = [Request.nameSearch q 1 1] := by
  unfold resolveTarget
  split
  · exact Or.inl rfl
  · split
    · exact Or.inl rfl
    · cases henv : env.nameSearch with
      | fail => simp
      | ok d =>
        cases hc : d.contracts with
        | nil => simp [henv, hc]
        | cons c cs => simp [henv, hc]

/-- C1: after any page merge of searchNFTs, the accumulated result
set contains no two items sharing a tokenId and, whenever every
tokenId involved is numeric, is in non-decreasing numeric tokenId
order. -/
theorem demo_merge_dedup_sorted (reset : Bool) (prev page : List NFTResult)
    (h : ∀ x ∈ (if reset then page else prev ++ page), numericTok x = true) :
    (mergePage reset prev page).Pairwise tokenIdNe ∧
    (mergePage reset prev page).Pairwise tokenValLe := by
  refine ⟨mergePage_pairwise_ne reset prev page, ?_⟩
  simp only [mergePage]
  refine sortByTokenId_pairwise _ ?_
  intro y hy
  exact h y ((dedupSeen_sublist [] _).subset hy)

theorem demo_merge_dedup_sorted_w :
    (mergePage false [itemW1, itemW2] [itemW3, itemW4]).Pairwise tokenIdNe ∧
    (mergePage false [itemW1, itemW2] [itemW3, itemW4]).Pairwise tokenValLe :=
  demo_merge_dedup_sorted false [itemW1, itemW2] [itemW3, itemW4] (by decide)

/-- C2: when a continuation page re-sends a tokenId already present
in the accumulation, the merged accumulation keeps exactly the
accumulation's version of that item: filtering the merge by that
tokenId yields the first page's record alone. -/
theorem demo_merge_first_wins (prev page : List NFTResult) (a : NFTResult)
    (hp : prev.Pairwise tokenIdNe) (ha : a ∈ prev) :
    filterTok a.tokenId (mergePage false prev page) = [a] := by
  refine filterTok_eq_of_pairwise _ a (mergePage_pairwise_ne false prev page) ?_
  simp only [mergePage, Bool.false_eq_true, if_false]
  refine ((sortByTokenId_perm _).mem_iff).mpr ?_
  exact mem_dedupSeen_append [] prev page a hp ha (by simp)

theorem demo_merge_first_wins_w :
    filterTok itemW1.tokenId (mergePage false [itemW1, itemW2] [itemW3, itemW4]) = [itemW1] :=
  demo_merge_first_wins [itemW1, itemW2] [itemW3, itemW4] itemW1 (by decide) (by decide)

/-- C5: a continuation request arriving through the intersection
observer while a first-page or continuation fetch is in flight, or
when the session is exhausted, is a no-op: no state change and no
request issued; likewise loadMore itself under its own guard. -/
theorem demo_inflight_noop (b : Bool) (env : Env) (s : SearchState)
    (h : s.isLoading = true ∨ s.isLoadingMore = true ∨ s.hasMore = false) :
    observerTrigger b env s = (s, []) ∧
    (s.isLoadingMore = true ∨ s.hasMore = false → loadMore env s = (s, [])) := by
  constructor
  · unfold observerTrigger
    rcases h with h | h | h <;> rw [h] <;> simp [loadMore]
  · intro h2
    unfold loadMore
    rcases h2 with h2 | h2 <;> rw [h2] <;> simp

theorem demo_inflight_noop_w :
    observerTrigger true envW busyState = (busyState, []) ∧
    loadMore envW busyState = (busyState, []) :=
  ⟨(demo_inflight_noop true envW busyState (Or.inr (Or.inl rfl))).1,
   (demo_inflight_noop true envW busyState (Or.inr (Or.inl rfl))).2 (Or.inl rfl)⟩

/-- C7: the synchronous opening of searchNFTs with resetResults true
resets the accumulation to empty, the page cursor to null and the
exhausted-flag to false (hasMore true), whatever the prior state. -/
theorem demo_reset_clears_session (s : SearchState) :
    (resetStep true s).searchResults = [] ∧ (resetStep true s).pageKey = none ∧
    (resetStep true s).hasMore = true := by
  simp [resetStep]

/-- C9: the continuation processing a listing response carries no
session tag; evaluated against the fresh state of a new search it
merges the abandoned session's items and cursor into that session,
contradicting the required discard of mismatched responses. -/
theorem demo_late_response_race :
    freshSession.searchResults = [] ∧ freshSession.pageKey = none ∧
    (processNFTsResponse false "Old Collection" ⟨[lateNft], some "k9"⟩
        freshSession).searchResults ≠ [] ∧
    (processNFTsResponse false "Old Collection" ⟨[lateNft], some "k9"⟩
        freshSession).pageKey = some "k9" := by
  decide

theorem resolveTarget_failed_msg (q : String) (ca : Option String) (env : Env)
    (m : String) (r : List Request)
    (h : resolveTarget q ca env = (.failed m, r)) :
    m = "Failed to search for collection" := by
  unfold resolveTarget at h
  split at h
  · simp at h
  · split at h
    · simp at h
    · cases henv : env.nameSearch with
      | fail =>
        rw [henv] at h
        simp at h
        exact h.1.symm
      | ok d =>
        rw [henv] at h
        simp only [] at h
        cases hc : d.contracts with
        | nil => rw [hc] at h; simp at h
        | cons c cs => rw [hc] at h; simp at h

/-- Members of a reset merge of formatted raws all carry the display
name handed to formatNFT. -/
theorem mergePage_reset_contractName (cn : String) (prevL : List NFTResult)
    (raws : List RawNFT) :
    ∀ x ∈ mergePage true prevL (raws.map (formatNFT cn)), x.contractName = cn := by
  intro x hx
  have hm := mergePage_subset true prevL _ x hx
  rw [if_pos rfl] at hm
  rcases List.mem_map.mp hm with ⟨raw, _, rfl⟩
  rfl

/-- C3 amended: a query matching the mandatory-0x address regex is
used directly as the resolved address (its metadata is requested) and
no name-search request is issued; a nonempty query failing the regex
goes to name resolution, whose request is issued first. -/
theorem demo_addr_pattern_resolution (q : String) (reset : Bool) (env : Env)
    (s0 : SearchState) :
    (isAddressTest q = true →
      (searchNFTs q none reset env s0).2.all (fun r => !r.isNameSearch) = true ∧
      Request.contractMeta q ∈ (searchNFTs q none reset env s0).2) ∧
    (isAddressTest q = false → jsStrTruthy q = true →
      (searchNFTs q none reset env s0).2.head? = some (.nameSearch q 1 1)) := by
  constructor
  · intro hq
    have ht := isAddressTest_truthy q hq
    have hguard : (!jsStrTruthy q && !jsOptTruthy (none : Option String)) = false := by
      rw [ht]; rfl
    have hres : resolveTarget q none env = (.resolved q, []) := by
      simp [resolveTarget, jsOptTruthy, hq]
    simp only [searchNFTs, hguard, Bool.false_eq_true, if_false, hres]
    cases hcm : env.contractMeta with
    | fail => simp [Request.isNameSearch]
    | ok m =>
      cases hln : env.listNFTs with
      | fail => simp [Request.isNameSearch]
      | ok nd => simp [Request.isNameSearch]
  · intro hq hq2
    have hguard : (!jsStrTruthy q && !jsOptTruthy (none : Option String)) = false := by
      rw [hq2]; rfl
    simp only [searchNFTs, hguard, Bool.false_eq_true, if_false]
    cases hns : env.nameSearch with
    | fail =>
      have hres : resolveTarget q none env =
          (.failed "Failed to search for collection", [Request.nameSearch q 1 1]) := by
        simp [resolveTarget, jsOptTruthy, hq, hns]
      simp [hres]
    | ok d =>
      cases hc : d.contracts with
      | nil =>
        have hres : resolveTarget q none env = (.notFound, [Request.nameSearch q 1 1]) := by
          simp [resolveTarget, jsOptTruthy, hq, hns, hc]
        simp [hres]
      | cons c cs =>
        have hres : resolveTarget q none env =
            (.resolved c.address, [Request.nameSearch q 1 1]) := by
          simp [resolveTarget, jsOptTruthy, hq, hns, hc]
        simp only [hres]
        cases hcm : env.contractMeta with
        | fail => simp
        | ok m =>
          cases hln : env.listNFTs with
          | fail => simp
          | ok nd => simp

theorem demo_addr_pattern_resolution_w :
    ((searchNFTs addrQ none true cexEnv cexState).2.all (fun r => !r.isNameSearch) = true ∧
      Request.contractMeta addrQ ∈ (searchNFTs addrQ none true cexEnv cexState).2) ∧
    (searchNFTs "cool cats" none true cexEnv cexState).2.head? =
      some (.nameSearch "cool cats" 1 1) :=
  ⟨(demo_addr_pattern_resolution addrQ true cexEnv cexState).1 (by decide),
   (demo_addr_pattern_resolution "cool cats" true cexEnv cexState).2 (by decide) (by decide)⟩

/-- C3 counterexample: a bare 40-hex-character query matches the
spec's optional-0x pattern, yet the code issues a name-search request
for it instead of using it directly as the resolved address. -/
theorem demo_addr_pattern_cex :
    claimAddressPattern "b47e3cd837dDF8e4c57F05d70Ab865de6e193BBB" = true ∧
    isAddressTest "b47e3cd837dDF8e4c57F05d70Ab865de6e193BBB" = false ∧
    (searchNFTs "b47e3cd837dDF8e4c57F05d70Ab865de6e193BBB" none true cexEnv cexState).2.head? =
      some (Request.nameSearch "b47e3cd837dDF8e4c57F05d70Ab865de6e193BBB" 1 1) := by
  decide

/-- C4: a failed page fetch surfaces one of the three generic failure
messages; a first-page failure empties the accumulation; a
continuation failure preserves the accumulation and leaves the
exhausted-flag unchanged; no request is issued twice (no retry). -/
theorem demo_fetch_failure_state (query : String) (contractAddress : Option String)
    (resetResults : Bool) (env : Env) (s0 : SearchState)
    (hguard : (!jsStrTruthy query && !jsOptTruthy contractAddress) = false)
    (hfail : fetchFails query contractAddress env = true) :
    (∃ msg, (searchNFTs query contractAddress resetResults env s0).1.error = some msg ∧
      msg ∈ ["Failed to search for collection", "Failed to fetch contract metadata",
        "Failed to fetch NFTs from collection"]) ∧
    (resetResults = true →
      (searchNFTs query contractAddress resetResults env s0).1.searchResults = []) ∧
    (resetResults = false →
      (searchNFTs query contractAddress resetResults env s0).1.searchResults =
        s0.searchResults ∧
      (searchNFTs query contractAddress resetResults env s0).1.hasMore = s0.hasMore) ∧
    (searchNFTs query contractAddress resetResults env s0).2.Nodup := by
  have hr := resolveTarget_reqs query contractAddress env
  unfold fetchFails at hfail
  rcases hres : resolveTarget query contractAddress env with ⟨out, reqs⟩
  rw [hres] at hfail hr
  have hr2 : reqs = [] ∨ reqs = [Request.nameSearch query 1 1] := hr
  simp only [searchNFTs, hguard, Bool.false_eq_true, if_false, hres]
  cases out with
  | notFound => simp at hfail
  | failed msg =>
    have hmsg := resolveTarget_failed_msg query contractAddress env msg reqs hres
    subst hmsg
    refine ⟨⟨"Failed to search for collection",
        by cases resetResults <;> simp [catchFetchError, finishFetch], by simp⟩, ?_, ?_, ?_⟩
    · intro h1; subst h1; simp [catchFetchError, finishFetch, resetStep]
    · intro h1; subst h1; simp [catchFetchError, finishFetch, resetStep]
    · rcases hr2 with rfl | rfl <;> simp
  | resolved t =>
    cases hcm : env.contractMeta with
    | fail =>
      simp only [hcm]
      cases hjt : jsStrTruthy t <;>
        (refine ⟨⟨"Failed to fetch contract metadata",
            by cases resetResults <;> simp [hjt, catchFetchError, finishFetch], by simp⟩,
          ?_, ?_, ?_⟩ <;>
          first
          | (intro h1; subst h1; simp [hjt, catchFetchError, finishFetch, resetStep])
          | (rcases hr2 with rfl | rfl <;> simp))
    | ok m =>
      cases hln : env.listNFTs with
      | fail =>
        simp only [hcm, hln]
        cases hjt : jsStrTruthy t <;>
          (refine ⟨⟨"Failed to fetch NFTs from collection",
              by cases resetResults <;> simp [hjt, catchFetchError, finishFetch], by simp⟩,
            ?_, ?_, ?_⟩ <;>
            first
            | (intro h1; subst h1; simp [hjt, catchFetchError, finishFetch, resetStep])
            | (rcases hr2 with rfl | rfl <;> simp))
      | ok nd =>
        rw [hcm, hln] at hfail
        simp at hfail

theorem demo_fetch_failure_state_w :
    (∃ msg, (searchNFTs "cool cats" none false envW cexState).1.error = some msg ∧
      msg ∈ ["Failed to search for collection", "Failed to fetch contract metadata",
        "Failed to fetch NFTs from collection"]) ∧
    (false = true → (searchNFTs "cool cats" none false envW cexState).1.searchResults = []) ∧
    (false = false →
      (searchNFTs "cool cats" none false envW cexState).1.searchResults =
        cexState.searchResults ∧
      (searchNFTs "cool cats" none false envW cexState).1.hasMore = cexState.hasMore) ∧
    (searchNFTs "cool cats" none false envW cexState).2.Nodup :=
  demo_fetch_failure_state "cool cats" none false envW cexState (by decide) (by decide)

/-- C6: a first-page listing response with zero items yields the
not-found terminal state (message surfaced, accumulation empty,
exhausted), while a final nonempty page yields the distinct
exhausted-after-results state (no error, nonempty accumulation). -/
theorem demo_empty_first_page (q addr : String) (env env2 : Env) (s0 : SearchState)
    (m m2 : ContractMetadataResp) (pk : Option String) (nft : RawNFT) (rest : List RawNFT)
    (ha : jsStrTruthy addr = true)
    (hm : env.contractMeta = .ok m) (hl : env.listNFTs = .ok ⟨[], pk⟩)
    (hm2 : env2.contractMeta = .ok m2) (hl2 : env2.listNFTs = .ok ⟨nft :: rest, none⟩) :
    ((searchNFTs q (some addr) true env s0).1.error =
        some "No NFTs found in this collection" ∧
      (searchNFTs q (some addr) true env s0).1.searchResults = [] ∧
      (searchNFTs q (some addr) true env s0).1.hasMore = false) ∧
    ((searchNFTs q (some addr) true env2 s0).1.error = none ∧
      (searchNFTs q (some addr) true env2 s0).1.hasMore = false ∧
      (searchNFTs q (some addr) true env2 s0).1.searchResults ≠ []) := by
  have hguard : (!jsStrTruthy q && !jsOptTruthy (some addr)) = false := by
    simp [jsOptTruthy, ha]
  have hres : ∀ e : Env, resolveTarget q (some addr) e = (.resolved addr, []) := by
    intro e
    simp [resolveTarget, jsOptTruthy, ha]
  constructor
  · simp [searchNFTs, hguard, hres, hm, hl, processNFTsResponse, finishFetch, resetStep]
  · simp only [searchNFTs, hguard, Bool.false_eq_true, if_false, hres, hm2, hl2]
    refine ⟨?_, ?_, ?_⟩
    · simp [processNFTsResponse, finishFetch, resetStep, ha, jsOptTruthy]
    · simp [processNFTsResponse, finishFetch, jsOptTruthy]
    · simp only [processNFTsResponse, finishFetch, List.map_cons, List.isEmpty_cons,
        Bool.false_eq_true, if_false]
      exact mergePage_reset_ne_nil _ _ _

theorem demo_empty_first_page_w :
    ((searchNFTs "x" (some "0xc") true emptyPageEnv cexState).1.error =
        some "No NFTs found in this collection" ∧
      (searchNFTs "x" (some "0xc") true emptyPageEnv cexState).1.searchResults = [] ∧
      (searchNFTs "x" (some "0xc") true emptyPageEnv cexState).1.hasMore = false) ∧
    ((searchNFTs "x" (some "0xc") true cexEnv cexState).1.error = none ∧
      (searchNFTs "x" (some "0xc") true cexEnv cexState).1.hasMore = false ∧
      (searchNFTs "x" (some "0xc") true cexEnv cexState).1.searchResults ≠ []) :=
  demo_empty_first_page "x" "0xc" emptyPageEnv cexEnv cexState ⟨some "N"⟩ ⟨some "Meta Name"⟩
    none lateNft [] (by decide) rfl rfl rfl rfl

/-- C8 amended: a non-address query issues exactly one name-search
request of page 1, size 1; zero matches raise Collection not found
with an empty accumulation; otherwise the first match's address is
the resolved address, while the display name carried by every
accumulated item comes from the contract-metadata lookup with the raw
query as fallback, not from the match's name. -/
theorem demo_resolver_display_name (q : String) (env : Env) (s0 : SearchState)
    (hq : isAddressTest q = false) (hq2 : jsStrTruthy q = true) :
    ((searchNFTs q none true env s0).2.countP Request.isNameSearch = 1 ∧
      (searchNFTs q none true env s0).2.head? = some (.nameSearch q 1 1)) ∧
    (∀ d, env.nameSearch = .ok d → d.contracts = [] →
      (searchNFTs q none true env s0).1.error = some "Collection not found" ∧
      (searchNFTs q none true env s0).1.searchResults = []) ∧
    (∀ d c cs, env.nameSearch = .ok d → d.contracts = c :: cs →
      Request.contractMeta c.address ∈ (searchNFTs q none true env s0).2 ∧
      ∀ m, env.contractMeta = .ok m →
        ∀ x ∈ (searchNFTs q none true env s0).1.searchResults,
          x.contractName = jsOrStr m.name q) := by
  have hguard : (!jsStrTruthy q && !jsOptTruthy (none : Option String)) = false := by
    rw [hq2]; rfl
  simp only [searchNFTs, hguard, Bool.false_eq_true, if_false]
  cases hns : env.nameSearch with
  | fail =>
    have hres : resolveTarget q none env =
        (.failed "Failed to search for collection", [Request.nameSearch q 1 1]) := by
      simp [resolveTarget, jsOptTruthy, hq, hns]
    simp only [hres]
    refine ⟨by simp [Request.isNameSearch], ?_, ?_⟩
    · intro d hd; simp at hd
    · intro d c cs hd; simp at hd
  | ok d0 =>
    cases hc : d0.contracts with
    | nil =>
      have hres : resolveTarget q none env = (.notFound, [Request.nameSearch q 1 1]) := by
        simp [resolveTarget, jsOptTruthy, hq, hns, hc]
      simp only [hres]
      refine ⟨by simp [Request.isNameSearch], ?_, ?_⟩
      · intro d hd he; simp [finishFetch]
      · intro d c cs hd he
        injection hd with hdd
        subst hdd
        rw [hc] at he
        simp at he
    | cons c0 cs0 =>
      have hres : resolveTarget q none env =
          (.resolved c0.address, [Request.nameSearch q 1 1]) := by
        simp [resolveTarget, jsOptTruthy, hq, hns, hc]
      simp only [hres]
      have hc0 : ∀ d c cs, FetchResult.ok d0 = FetchResult.ok d → d.contracts = c :: cs →
          c = c0 := by
        intro d c cs hd he
        injection hd with hdd
        subst hdd
        rw [hc] at he
        injection he with h1 h2
        exact h1.symm
      cases hcm : env.contractMeta with
      | fail =>
        refine ⟨by simp [Request.isNameSearch], ?_, ?_⟩
        · intro d hd; injection hd with hdd; subst hdd
          intro he; rw [hc] at he; simp at he
        · intro d c cs hd he
          have hcc := hc0 d c cs hd he
          subst hcc
          refine ⟨by simp, ?_⟩
          intro m hm
          simp at hm
      | ok m0 =>
        cases hln : env.listNFTs with
        | fail =>
          refine ⟨by simp [Request.isNameSearch], ?_, ?_⟩
          · intro d hd; injection hd with hdd; subst hdd
            intro he; rw [hc] at he; simp at he
          · intro d c cs hd he
            have hcc := hc0 d c cs hd he
            subst hcc
            refine ⟨by simp, ?_⟩
            intro m hm x hx
            simp [catchFetchError, finishFetch] at hx
        | ok nd =>
          refine ⟨by simp [Request.isNameSearch], ?_, ?_⟩
          · intro d hd; injection hd with hdd; subst hdd
            intro he; rw [hc] at he; simp at he
          · intro d c cs hd he
            have hcc := hc0 d c cs hd he
            subst hcc
            refine ⟨by simp, ?_⟩
            intro m hm x hx
            injection hm with hmm
            subst hmm
            by_cases hemp : nd.nfts.isEmpty
            · simp [processNFTsResponse, hemp, finishFetch, resetStep] at hx
            · simp only [processNFTsResponse, hemp, Bool.false_eq_true, if_false,
                finishFetch] at hx
              exact mergePage_reset_contractName (jsOrStr m0.name q) _ nd.nfts x hx

theorem demo_resolver_display_name_w :
    (searchNFTs "cool cats" none true cexEnv cexState).2.countP Request.isNameSearch = 1 ∧
    Request.contractMeta "0xabc" ∈ (searchNFTs "cool cats" none true cexEnv cexState).2 :=
  ⟨((demo_resolver_display_name "cool cats" cexEnv cexState (by decide) (by decide)).1).1,
   (((demo_resolver_display_name "cool cats" cexEnv cexState (by decide) (by decide)).2).2
      ⟨[⟨some "Some Collection", "0xabc"⟩]⟩ ⟨some "Some Collection", "0xabc"⟩ [] rfl rfl).1⟩

/-- C8 counterexample: with the name-search match named Some
Collection and the metadata lookup naming the contract Meta Name, the
accumulated item carries Meta Name — the match's name does not become
the resolved display name. -/
theorem demo_resolver_name_cex :
    cexEnv.nameSearch = .ok ⟨[⟨some "Some Collection", "0xabc"⟩]⟩ ∧
    contractNamesOf (searchNFTs "cool cats" none true cexEnv cexState).1.searchResults =
      ["Meta Name"] ∧
    "Meta Name" ≠ "Some Collection" := by
  decide

/-- C10: searchNFTs with an empty query and no contract address
returns before touching any state or issuing any request. -/
theorem demo_empty_query_noop (reset : Bool) (env : Env) (s : SearchState) :
    searchNFTs "" none reset env s = (s, []) := by
  simp [searchNFTs, jsStrTruthy, jsOptTruthy]

end Demo
